import Mathlib

/-!
# Verification of the monochrome-detection palette pipeline

Shallow embedding of the palette-evaluation pipeline from `App.tsx`
(the canonical variant with the monochrome score): hue-family
classification (`determineColorFamily`), threshold filtering
(`filterPalette`), palette sorting (`sortPalette` comparator),
distinct-family counting, validity, monochrome scoring
(`configEachImageFinalObject`) and batch ranking (`configImages`).

JavaScript numbers are modelled as rationals (`ℚ`); `Math.floor` is
`Int.floor`, `Math.abs` is `|·|`, and `Math.round x` is `⌊x + 1/2⌋`
(round half toward positive infinity, as in ECMAScript).
The `chroma-js` RGB→Lab→LCh conversion (`rgbToCIELCh`) is an external
library call, so it is modelled as an abstract conversion function from
the RGB channels to an `(L, C, h)` triple; every pipeline result is
proved for an arbitrary such conversion.  JavaScript `Array.sort` is a
stable sort whose output is ordered by the comparator; it is modelled
by `List.mergeSort` (stable) with the relation `comparator a b ≤ 0`.
-/

namespace Monochrome

/-- One extracted color swatch (`ColorInfo` in `App.tsx`). -/
structure ColorInfo where
  hex : String
  red : ℤ
  green : ℤ
  blue : ℤ
  hue : ℚ
  intensity : ℚ
  lightness : ℚ
  saturation : ℚ
  area : ℚ
  colorFamily : String
deriving DecidableEq

/-- An image together with its extracted palette (the input shape of
`imagesWithPalette` entries: only `img` and `colors` are populated). -/
structure ImagePalette where
  img : String
  colors : List ColorInfo
deriving DecidableEq

/-- The per-image result built by `configEachImageFinalObject`
(`ImageConfig` in `App.tsx`). -/
structure EvaluatedImage where
  img : String
  colors : List ColorInfo
  distinctColors : List String
  valid : Bool
  monochrome : ℤ
deriving DecidableEq

/-- The user-adjustable form state consumed by the pipeline. -/
structure PipelineConfig where
  minColorsRequired : ℕ
  minDistinctColorsRequired : ℕ
  darkThreshold : ℚ
  grayThreshold : ℚ
deriving DecidableEq

/-- The abstract perceptual conversion: `chroma-js`'s
`rgb(...).lab()` → `lab(...).lch()` round trip, taking the red, green
and blue channels to the `[lightness, chroma, hue]` triple. -/
abbrev Conv := ℤ → ℤ → ℤ → ℚ × ℚ × ℚ

/-- `rgbToCIELCh` from `App.tsx`: feed a swatch's RGB channels through
the perceptual conversion, producing `(lightness, chroma, hue)`. -/
def rgbToCIELCh (conv : Conv) (colorInfo : ColorInfo) : ℚ × ℚ × ℚ :=
  conv colorInfo.red colorInfo.green colorInfo.blue

/-- ECMAScript `Math.round`: round half toward positive infinity. -/
def jsRound (q : ℚ) : ℤ := ⌊q + 1 / 2⌋

/-- `determineColorFamily` from `App.tsx`: bucket a hue into one of five
named families, falling back to the decimal string of the rounded hue. -/
def determineColorFamily (hue : ℚ) : String :=
  let hueRounded := jsRound (hue * 1000)
  if hueRounded > 900 ∨ hueRounded ≤ 50 then "(pink)"
  else if hueRounded > 50 ∧ hueRounded ≤ 140 then "(brown)"
  else if hueRounded > 140 ∧ hueRounded ≤ 490 then "(green)"
  else if hueRounded > 490 ∧ hueRounded ≤ 600 then "(blue)"
  else if hueRounded > 600 ∧ hueRounded ≤ 900 then "(purple)"
  else toString hueRounded

/-- `filterPalette` from `App.tsx`: keep a swatch when its perceptual
lightness and chroma sit at or above the two thresholds. -/
def filterPalette (conv : Conv) (darkThreshold grayThreshold : ℚ)
    (colorInfo : ColorInfo) : Bool :=
  let lch := rgbToCIELCh conv colorInfo
  decide (lch.1 ≥ darkThreshold) && decide (lch.2.1 ≥ grayThreshold)

/-- `sortPalette` from `App.tsx`, the JavaScript comparator: compare by
perceptual hue, then perceptual lightness, then perceptual chroma,
returning the signed difference of the first differing component. -/
def sortPaletteCmp (conv : Conv) (a b : ColorInfo) : ℚ :=
  let la := rgbToCIELCh conv a
  let lb := rgbToCIELCh conv b
  if la.2.2 ≠ lb.2.2 then la.2.2 - lb.2.2
  else if la.1 ≠ lb.1 then la.1 - lb.1
  else if la.2.1 ≠ lb.2.1 then la.2.1 - lb.2.1
  else 0

/-- The \"`a` may precede `b`\" relation induced by the comparator, as
used by `Array.prototype.sort`. -/
def paletteLe (conv : Conv) (a b : ColorInfo) : Bool :=
  decide (sortPaletteCmp conv a b ≤ 0)

/-- `Array.prototype.sort(sortPalette)`: a stable sort ordered by the
comparator. -/
def sortPalette (conv : Conv) (cs : List ColorInfo) : List ColorInfo :=
  cs.mergeSort (paletteLe conv)

/-- `new Set(...)` insertion-order deduplication: the distinct values of
a list, first occurrence first. -/
def setDedup : List String → List String
  | [] => []
  | x :: xs => x :: (setDedup xs).filter (fun y => decide (y ≠ x))

/-- The monochrome-percentage computation inside
`configEachImageFinalObject`, as a function of the filtered swatch
count `n` and the distinct family count `d`. -/
def monochromeScore (n d : ℕ) : ℤ :=
  let certaintyDependingOnColorAmount : ℚ := (n * 100) / 15
  let certaintyDependingOnDistinctColors : ℚ := (d * 100) / 5
  let mixedPercentages : ℤ :=
    ⌊|(certaintyDependingOnColorAmount + certaintyDependingOnDistinctColors) / 2 - 100|⌋
  if 20 < n ∨ 3 < d then 0 else mixedPercentages

/-- The per-swatch classification step of `configEachImageColorPalette`:
attach the color family derived from the swatch's raw hue. -/
def classifySwatch (colorInfo : ColorInfo) : ColorInfo :=
  { colorInfo with colorFamily := determineColorFamily colorInfo.hue }

/-- `configEachImageColorPalette` from `App.tsx`: filter by thresholds,
attach color families, then sort with the palette comparator. -/
def configEachImageColorPalette (conv : Conv) (darkThreshold grayThreshold : ℚ)
    (colors : List ColorInfo) : List ColorInfo :=
  sortPalette conv
    ((colors.filter (filterPalette conv darkThreshold grayThreshold)).map classifySwatch)

/-- `configEachImageFinalObject` from `App.tsx`: build the evaluated
image record (filtered/classified/sorted palette, distinct family list,
validity flag, monochrome percentage). -/
def configEachImageFinalObject (conv : Conv) (cfg : PipelineConfig)
    (imgConfig : ImagePalette) : EvaluatedImage :=
  let imageColors :=
    configEachImageColorPalette conv cfg.darkThreshold cfg.grayThreshold imgConfig.colors
  let distinctColors := setDedup (imageColors.map (fun colorInfo => colorInfo.colorFamily))
  let valid :=
    decide (distinctColors.length ≥ cfg.minDistinctColorsRequired) &&
    decide (imageColors.length ≥ cfg.minColorsRequired)
  { img := imgConfig.img
    colors := imageColors
    distinctColors := distinctColors
    valid := valid
    monochrome := monochromeScore imageColors.length distinctColors.length }

/-- The batch ranking comparator of `configImages`:
`(a, b) => a.monochrome - b.monochrome`, as a \"may precede\" relation. -/
def monochromeLe (a b : EvaluatedImage) : Bool :=
  decide (a.monochrome ≤ b.monochrome)

/-- `configImages` from `App.tsx`: evaluate every palette, then rank the
batch ascending by monochrome score (stable sort). -/
def configImages (conv : Conv) (cfg : PipelineConfig)
    (imagesWithPalette : List ImagePalette) : List EvaluatedImage :=
  (imagesWithPalette.map (configEachImageFinalObject conv cfg)).mergeSort monochromeLe

/-! ## C1: monochrome score override, formula and bounds -/

/-- Claim C1: For every filtered swatch count `n ≥ 0` and distinct family
count `d ≥ 0`, the monochrome score equals `0` when `n > 20` or `d > 3`;
otherwise it equals `⌊|((n·100/15 + d·100/5)/2) − 100|⌋`, and that value
lies within `[0, 100]`. -/
theorem monochromeScore_spec (n d : ℕ) :
    (20 < n ∨ 3 < d → monochromeScore n d = 0) ∧
    (n ≤ 20 → d ≤ 3 →
      monochromeScore n d = ⌊|(((n : ℚ) * 100 / 15 + (d : ℚ) * 100 / 5) / 2) - 100|⌋ ∧
      0 ≤ monochromeScore n d ∧ monochromeScore n d ≤ 100) := by
  constructor
  · intro h
    simp [monochromeScore, h]
  · intro hn hd
    have hcond : ¬(20 < n ∨ 3 < d) := by omega
    have heq : monochromeScore n d =
        ⌊|(((n : ℚ) * 100 / 15 + (d : ℚ) * 100 / 5) / 2) - 100|⌋ := by
      simp [monochromeScore, hcond]
    refine ⟨heq, ?_, ?_⟩
    · rw [heq]
      exact Int.floor_nonneg.mpr (abs_nonneg _)
    · rw [heq]
      have hn' : (n : ℚ) ≤ 20 := by exact_mod_cast hn
      have hd' : (d : ℚ) ≤ 3 := by exact_mod_cast hd
      have hx0 : (0 : ℚ) ≤ ((n : ℚ) * 100 / 15 + (d : ℚ) * 100 / 5) / 2 := by positivity
      have habs : |(((n : ℚ) * 100 / 15 + (d : ℚ) * 100 / 5) / 2) - 100| ≤ 100 := by
        rw [abs_sub_comm, abs_of_nonneg (by linarith)]
        linarith
      have hfl := Int.floor_mono habs
      simpa using hfl

/-- Witness for C1: the spec's worked scenario `n = 3, d = 3` gives
score `60`, and the override at `n = 21, d = 3` gives `0`. -/
theorem monochromeScore_spec_witness :
    monochromeScore 3 3 = 60 ∧ monochromeScore 21 3 = 0 := by
  constructor
  · have h := (monochromeScore_spec 3 3).2 (by norm_num) (by norm_num)
    rw [h.1]
    norm_num
  · exact (monochromeScore_spec 21 3).1 (by norm_num)

/-! ## C4: classifier totality and partition -/

/-- The five named color-family strings, in source order. -/
def namedFamilies : List String :=
  ["(pink)", "(brown)", "(green)", "(blue)", "(purple)"]

theorem jsRound_hue_nonneg {h : ℚ} (h0 : 0 ≤ h) : 0 ≤ jsRound (h * 1000) := by
  unfold jsRound
  exact Int.le_floor.mpr (by push_cast; linarith)

theorem jsRound_hue_le {h : ℚ} (h1 : h < 1) : jsRound (h * 1000) ≤ 1000 := by
  unfold jsRound
  have hlt : ⌊h * 1000 + 1 / 2⌋ < 1001 := Int.floor_lt.mpr (by push_cast; linarith)
  omega

/-- Under a hue in `[0, 1)` the classifier returns a named family: the
numeric-string fallback is unreachable. -/
theorem determineColorFamily_mem_namedFamilies {h : ℚ} (h0 : 0 ≤ h) (h1 : h < 1) :
    determineColorFamily h ∈ namedFamilies := by
  have hr0 := jsRound_hue_nonneg h0
  have hr1000 := jsRound_hue_le h1
  simp only [determineColorFamily, namedFamilies]
  split_ifs <;> first
    | decide
    | (exfalso; omega)

/-- Claim C4: For every hue `h ∈ [0, 1)` the classifier computes
`r = round(h·1000)`, which lies in `[0, 1000]`, and returns exactly one
of the five named families — pink iff `r > 900` or `r ≤ 50`, brown iff
`50 < r ≤ 140`, green iff `140 < r ≤ 490`, blue iff `490 < r ≤ 600`,
purple iff `600 < r ≤ 900` — and the numeric-string fallback branch is
unreachable on this domain. -/
theorem determineColorFamily_spec (h : ℚ) (h0 : 0 ≤ h) (h1 : h < 1) :
    0 ≤ jsRound (h * 1000) ∧ jsRound (h * 1000) ≤ 1000 ∧
    (determineColorFamily h = "(pink)" ↔
      900 < jsRound (h * 1000) ∨ jsRound (h * 1000) ≤ 50) ∧
    (determineColorFamily h = "(brown)" ↔
      50 < jsRound (h * 1000) ∧ jsRound (h * 1000) ≤ 140) ∧
    (determineColorFamily h = "(green)" ↔
      140 < jsRound (h * 1000) ∧ jsRound (h * 1000) ≤ 490) ∧
    (determineColorFamily h = "(blue)" ↔
      490 < jsRound (h * 1000) ∧ jsRound (h * 1000) ≤ 600) ∧
    (determineColorFamily h = "(purple)" ↔
      600 < jsRound (h * 1000) ∧ jsRound (h * 1000) ≤ 900) ∧
    determineColorFamily h ∈ namedFamilies := by
  have hr0 := jsRound_hue_nonneg h0
  have hr1000 := jsRound_hue_le h1
  refine ⟨hr0, hr1000, ?_⟩
  have hmem := determineColorFamily_mem_namedFamilies h0 h1
  simp only [determineColorFamily, namedFamilies] at *
  split_ifs <;>
    refine ⟨?_, ?_, ?_, ?_, ?_, ?_⟩ <;>
    first
      | exact iff_of_true rfl (by omega)
      | exact iff_of_false (by decide) (by omega)
      | decide
      | (exfalso; omega)

/-- Witness for C4: hue `0.3` rounds to `300` and is classified green. -/
theorem determineColorFamily_spec_witness :
    determineColorFamily (3 / 10) = "(green)" := by
  have h := determineColorFamily_spec (3 / 10) (by norm_num) (by norm_num)
  exact h.2.2.2.2.1.mpr (by norm_num [jsRound])

/-! ## C5, C6: filter contract, order preservation and monotonicity -/

theorem filterPalette_eq_true_iff (conv : Conv) (dark gray : ℚ) (c : ColorInfo) :
    filterPalette conv dark gray c = true ↔
      dark ≤ (rgbToCIELCh conv c).1 ∧ gray ≤ (rgbToCIELCh conv c).2.1 := by
  simp [filterPalette, ge_iff_le]

/-- Claim C5: The palette filter keeps a swatch iff its perceptual
lightness `L` is at least `darkThreshold` and its perceptual chroma `C`
is at least `grayThreshold` (`L` and `C` from the swatch's RGB via the
conversion), and the kept swatches appear in the output in their
original relative order (the filtered list is a sublist of the input). -/
theorem filterPalette_spec (conv : Conv) (dark gray : ℚ) (cs : List ColorInfo) :
    (∀ c, filterPalette conv dark gray c = true ↔
      dark ≤ (rgbToCIELCh conv c).1 ∧ gray ≤ (rgbToCIELCh conv c).2.1) ∧
    (cs.filter (filterPalette conv dark gray)).Sublist cs ∧
    (∀ c, c ∈ cs.filter (filterPalette conv dark gray) ↔
      c ∈ cs ∧ dark ≤ (rgbToCIELCh conv c).1 ∧ gray ≤ (rgbToCIELCh conv c).2.1) := by
  refine ⟨filterPalette_eq_true_iff conv dark gray, List.filter_sublist cs, ?_⟩
  intro c
  rw [List.mem_filter, filterPalette_eq_true_iff]

/-- Claim C6: Raising both thresholds can only shrink the kept set: every
swatch kept under the higher thresholds is kept under the lower ones,
and the kept count under the higher thresholds is at most the kept
count under the lower ones. -/
theorem filterPalette_monotone (conv : Conv) (dark1 gray1 dark2 gray2 : ℚ)
    (hdark : dark1 ≤ dark2) (hgray : gray1 ≤ gray2) (cs : List ColorInfo) :
    (∀ c ∈ cs.filter (filterPalette conv dark2 gray2),
      c ∈ cs.filter (filterPalette conv dark1 gray1)) ∧
    (cs.filter (filterPalette conv dark2 gray2)).length ≤
      (cs.filter (filterPalette conv dark1 gray1)).length := by
  have himp : ∀ c, filterPalette conv dark2 gray2 c = true →
      filterPalette conv dark1 gray1 c = true := by
    intro c hc
    rw [filterPalette_eq_true_iff] at hc ⊢
    exact ⟨le_trans hdark hc.1, le_trans hgray hc.2⟩
  have hsub : (cs.filter (filterPalette conv dark2 gray2)).Sublist
      (cs.filter (filterPalette conv dark1 gray1)) :=
    List.monotone_filter_right cs himp
  exact ⟨fun c hc => hsub.subset hc, hsub.length_le⟩

/-- A concrete conversion used to instantiate witnesses: lightness is
the red channel, chroma the green channel, hue the blue channel. -/
def sampleConv : Conv := fun r g b => ((r : ℚ), (g : ℚ), (b : ℚ))

/-- A concrete swatch used to instantiate witnesses. -/
def sampleSwatch : ColorInfo :=
  { hex := "#0a0a0a", red := 10, green := 10, blue := 10, hue := 1 / 2,
    intensity := 0, lightness := 0, saturation := 0, area := 0, colorFamily := "" }

/-- Witness for C6 at concrete thresholds `5 ≤ 20` on a one-swatch list. -/
theorem filterPalette_monotone_witness :
    ([sampleSwatch].filter (filterPalette sampleConv 20 20)).length ≤
      ([sampleSwatch].filter (filterPalette sampleConv 5 5)).length :=
  (filterPalette_monotone sampleConv 5 5 20 20 (by norm_num) (by norm_num) [sampleSwatch]).2

/-! ## Sort comparator: lexicographic characterisation -/

/-- Perceptual lightness of a swatch (first component of the LCh triple). -/
def lightnessOf (conv : Conv) (c : ColorInfo) : ℚ := (rgbToCIELCh conv c).1

/-- Perceptual chroma of a swatch (second component of the LCh triple). -/
def chromaOf (conv : Conv) (c : ColorInfo) : ℚ := (rgbToCIELCh conv c).2.1

/-- Perceptual hue of a swatch (third component of the LCh triple). -/
def hueOf (conv : Conv) (c : ColorInfo) : ℚ := (rgbToCIELCh conv c).2.2

/-- The order the `sortPalette` comparator induces: ascending perceptual
hue, then ascending perceptual lightness, then ascending perceptual
chroma. -/
def keyLe (conv : Conv) (a b : ColorInfo) : Prop :=
  hueOf conv a < hueOf conv b ∨
    (hueOf conv a = hueOf conv b ∧
      (lightnessOf conv a < lightnessOf conv b ∨
        (lightnessOf conv a = lightnessOf conv b ∧
          chromaOf conv a ≤ chromaOf conv b)))

theorem paletteLe_iff (conv : Conv) (a b : ColorInfo) :
    paletteLe conv a b = true ↔ keyLe conv a b := by
  simp only [paletteLe, sortPaletteCmp, keyLe, hueOf, lightnessOf, chromaOf,
    decide_eq_true_eq]
  rcases eq_or_ne (rgbToCIELCh conv a).2.2 (rgbToCIELCh conv b).2.2 with hh | hh
  · rcases eq_or_ne (rgbToCIELCh conv a).1 (rgbToCIELCh conv b).1 with hl | hl
    · rcases eq_or_ne (rgbToCIELCh conv a).2.1 (rgbToCIELCh conv b).2.1 with hc | hc
      · simp [hh, hl, hc]
      · rw [if_neg (not_not_intro hh), if_neg (not_not_intro hl), if_pos hc, sub_nonpos]
        simp [hh, hl]
    · rw [if_neg (not_not_intro hh), if_pos hl, sub_nonpos, le_iff_lt_or_eq]
      simp [hh, hl]
  · rw [if_pos hh, sub_nonpos, le_iff_lt_or_eq]
    simp [hh]

theorem keyLe_trans (conv : Conv) {a b c : ColorInfo}
    (h1 : keyLe conv a b) (h2 : keyLe conv b c) : keyLe conv a c := by
  unfold keyLe at *
  rcases h1 with h1 | ⟨e1, h1⟩
  · rcases h2 with h2 | ⟨e2, _⟩
    · exact Or.inl (lt_trans h1 h2)
    · exact Or.inl (e2 ▸ h1)
  · rcases h2 with h2 | ⟨e2, h2⟩
    · exact Or.inl (by rw [e1]; exact h2)
    · refine Or.inr ⟨e1.trans e2, ?_⟩
      rcases h1 with h1 | ⟨f1, h1⟩
      · rcases h2 with h2 | ⟨f2, _⟩
        · exact Or.inl (lt_trans h1 h2)
        · exact Or.inl (f2 ▸ h1)
      · rcases h2 with h2 | ⟨f2, h2⟩
        · exact Or.inl (by rw [f1]; exact h2)
        · exact Or.inr ⟨f1.trans f2, le_trans h1 h2⟩

theorem keyLe_total (conv : Conv) (a b : ColorInfo) :
    keyLe conv a b ∨ keyLe conv b a := by
  unfold keyLe
  rcases lt_trichotomy (hueOf conv a) (hueOf conv b) with h | h | h
  · exact Or.inl (Or.inl h)
  · rcases lt_trichotomy (lightnessOf conv a) (lightnessOf conv b) with l | l | l
    · exact Or.inl (Or.inr ⟨h, Or.inl l⟩)
    · rcases le_total (chromaOf conv a) (chromaOf conv b) with hc | hc
      · exact Or.inl (Or.inr ⟨h, Or.inr ⟨l, hc⟩⟩)
      · exact Or.inr (Or.inr ⟨h.symm, Or.inr ⟨l.symm, hc⟩⟩)
    · exact Or.inr (Or.inr ⟨h.symm, Or.inl l⟩)
  · exact Or.inr (Or.inl h)

theorem paletteLe_trans (conv : Conv) : ∀ a b c : ColorInfo,
    paletteLe conv a b → paletteLe conv b c → paletteLe conv a c := by
  intro a b c h1 h2
  rw [paletteLe_iff] at h1 h2 ⊢
  exact keyLe_trans conv h1 h2

theorem paletteLe_total (conv : Conv) : ∀ a b : ColorInfo,
    paletteLe conv a b || paletteLe conv b a := by
  intro a b
  rw [Bool.or_eq_true, paletteLe_iff, paletteLe_iff]
  exact keyLe_total conv a b

theorem sortPalette_perm (conv : Conv) (cs : List ColorInfo) :
    (sortPalette conv cs).Perm cs :=
  List.mergeSort_perm cs (paletteLe conv)

theorem sortPalette_pairwise (conv : Conv) (cs : List ColorInfo) :
    (sortPalette conv cs).Pairwise (fun a b => keyLe conv a b) := by
  have hs : (sortPalette conv cs).Pairwise (fun a b => paletteLe conv a b = true) :=
    List.sorted_mergeSort (paletteLe_trans conv) (paletteLe_total conv) cs
  exact hs.imp (fun h => (paletteLe_iff conv _ _).mp h)

/-! ## C7: sort order and stability -/

/-- Claim C7: The palette sort returns a permutation of its input ordered
by ascending perceptual hue, then ascending perceptual lightness, then
ascending perceptual chroma (`keyLe`); any run of swatches whose three
perceptual components are all equal keeps its original relative order;
and for any three swatches with equal perceptual hue and pairwise
different perceptual lightness, the sorted output places them in
ascending lightness order regardless of their input order. -/
theorem sortPalette_spec (conv : Conv) (cs : List ColorInfo) :
    (sortPalette conv cs).Perm cs ∧
    (sortPalette conv cs).Pairwise (fun a b => keyLe conv a b) ∧
    (∀ l : List ColorInfo,
      l.Pairwise (fun a b => hueOf conv a = hueOf conv b ∧
        lightnessOf conv a = lightnessOf conv b ∧
        chromaOf conv a = chromaOf conv b) →
      l.Sublist cs → l.Sublist (sortPalette conv cs)) ∧
    (∀ a b c : ColorInfo,
      hueOf conv a = hueOf conv b → hueOf conv b = hueOf conv c →
      lightnessOf conv a ≠ lightnessOf conv b →
      lightnessOf conv a ≠ lightnessOf conv c →
      lightnessOf conv b ≠ lightnessOf conv c →
      ∀ input : List ColorInfo, input.Perm [a, b, c] →
        (sortPalette conv input).Pairwise
          (fun x y => lightnessOf conv x < lightnessOf conv y)) := by
  refine ⟨sortPalette_perm conv cs, sortPalette_pairwise conv cs, ?_, ?_⟩
  · intro l hpw hsub
    have hpw' : l.Pairwise (fun a b => paletteLe conv a b = true) :=
      hpw.imp (fun h => (paletteLe_iff conv _ _).mpr
        (Or.inr ⟨h.1, Or.inr ⟨h.2.1, le_of_eq h.2.2⟩⟩))
    exact List.sublist_mergeSort (paletteLe_trans conv) (paletteLe_total conv) hpw' hsub
  · intro a b c hab hbc lab lac lbc input hperm
    have hmem3 : ∀ x ∈ sortPalette conv input, x = a ∨ x = b ∨ x = c := by
      intro x hx
      have hx' : x ∈ input := (sortPalette_perm conv input).subset hx
      have := hperm.subset hx'
      simpa using this
    have hH : ∀ x y : ColorInfo, (x = a ∨ x = b ∨ x = c) → (y = a ∨ y = b ∨ y = c) →
        hueOf conv x = hueOf conv y := by
      rintro x y (rfl | rfl | rfl) (rfl | rfl | rfl) <;>
        first
          | rfl
          | exact hab
          | exact hab.symm
          | exact hbc
          | exact hbc.symm
          | exact hab.trans hbc
          | exact (hab.trans hbc).symm
    have hL : ∀ x y : ColorInfo, (x = a ∨ x = b ∨ x = c) → (y = a ∨ y = b ∨ y = c) →
        x ≠ y → lightnessOf conv x ≠ lightnessOf conv y := by
      rintro x y (rfl | rfl | rfl) (rfl | rfl | rfl) hne <;>
        first
          | exact absurd rfl hne
          | exact lab
          | exact lac
          | exact lbc
          | exact lab.symm
          | exact lac.symm
          | exact lbc.symm
    have hnd3 : ([a, b, c] : List ColorInfo).Nodup := by
      have hne_ab : a ≠ b := fun h => lab (by rw [h])
      have hne_ac : a ≠ c := fun h => lac (by rw [h])
      have hne_bc : b ≠ c := fun h => lbc (by rw [h])
      simp [hne_ab, hne_ac, hne_bc]
    have hnd : (sortPalette conv input).Nodup :=
      ((sortPalette_perm conv input).trans hperm).symm.nodup hnd3
    have hsorted := sortPalette_pairwise conv input
    have hand := hsorted.and hnd
    refine hand.imp_of_mem ?_
    intro x y hx hy hxy
    obtain ⟨hk, hne⟩ := hxy
    have hx3 := hmem3 x hx
    have hy3 := hmem3 y hy
    have hhue := hH x y hx3 hy3
    have hlight := hL x y hx3 hy3 hne
    rcases hk with h | ⟨_, h⟩
    · exact absurd h (by rw [hhue]; exact lt_irrefl _)
    · rcases h with h | ⟨heq, _⟩
      · exact h
      · exact absurd heq hlight

/-- Sample swatches for the C7 witness: equal blue channel (hue under
`sampleConv`), distinct red channels (lightness under `sampleConv`). -/
def swA : ColorInfo := { sampleSwatch with red := 1 }

/-- Second sample swatch for the C7 witness. -/
def swB : ColorInfo := { sampleSwatch with red := 2 }

/-- Third sample swatch for the C7 witness. -/
def swC : ColorInfo := { sampleSwatch with red := 3 }

/-- Witness for C7: three equal-hue swatches with lightness `3, 1, 2`
are returned in ascending lightness order. -/
theorem sortPalette_spec_witness :
    (sortPalette sampleConv [swC, swA, swB]).Pairwise
      (fun x y => lightnessOf sampleConv x < lightnessOf sampleConv y) :=
  (sortPalette_spec sampleConv [swC, swA, swB]).2.2.2 swA swB swC
    (by decide) (by decide) (by decide) (by decide) (by decide)
    [swC, swA, swB]
    (by simpa using (@List.perm_append_comm ColorInfo [swC] [swA, swB]))

/-! ## Distinct-family counting: `setDedup` facts -/

theorem mem_setDedup {l : List String} {s : String} : s ∈ setDedup l ↔ s ∈ l := by
  induction l with
  | nil => simp [setDedup]
  | cons x xs ih =>
    simp only [setDedup, List.mem_cons, List.mem_filter, decide_eq_true_eq, ih]
    rcases eq_or_ne s x with rfl | hne
    · simp
    · simp [hne]

theorem setDedup_nodup (l : List String) : (setDedup l).Nodup := by
  induction l with
  | nil => simp [setDedup]
  | cons x xs ih =>
    simp only [setDedup]
    rw [List.nodup_cons]
    refine ⟨?_, ih.filter _⟩
    simp [List.mem_filter]

theorem setDedup_length_le (l : List String) : (setDedup l).length ≤ l.length := by
  induction l with
  | nil => simp [setDedup]
  | cons x xs ih =>
    simp only [setDedup, List.length_cons]
    have hf := List.length_filter_le (fun y => decide (y ≠ x)) (setDedup xs)
    omega

theorem setDedup_toFinset (l : List String) : (setDedup l).toFinset = l.toFinset := by
  ext s
  simp [List.mem_toFinset, mem_setDedup]

theorem setDedup_length_eq_card (l : List String) :
    (setDedup l).length = l.toFinset.card := by
  rw [← setDedup_toFinset]
  exact (List.toFinset_card_of_nodup (setDedup_nodup l)).symm

/-! ## Pipeline extraction helpers -/

theorem configEachImageColorPalette_length (conv : Conv) (dark gray : ℚ)
    (colors : List ColorInfo) :
    (configEachImageColorPalette conv dark gray colors).length =
      (colors.filter (filterPalette conv dark gray)).length := by
  unfold configEachImageColorPalette sortPalette
  rw [List.length_mergeSort, List.length_map]

theorem configEachImageColorPalette_families (conv : Conv) (dark gray : ℚ)
    (colors : List ColorInfo) :
    ((configEachImageColorPalette conv dark gray colors).map
        (fun c => c.colorFamily)).toFinset =
      ((colors.filter (filterPalette conv dark gray)).map
        (fun c => determineColorFamily c.hue)).toFinset := by
  ext s
  simp only [List.mem_toFinset, List.mem_map]
  unfold configEachImageColorPalette sortPalette
  constructor
  · rintro ⟨x, hx, rfl⟩
    rw [List.mem_mergeSort, List.mem_map] at hx
    obtain ⟨c, hc, rfl⟩ := hx
    exact ⟨c, hc, rfl⟩
  · rintro ⟨c, hc, rfl⟩
    refine ⟨classifySwatch c, ?_, rfl⟩
    rw [List.mem_mergeSort, List.mem_map]
    exact ⟨c, hc, rfl⟩

theorem mem_configEachImageColorPalette (conv : Conv) (dark gray : ℚ)
    (colors : List ColorInfo) :
    ∀ x ∈ configEachImageColorPalette conv dark gray colors,
      ∃ c ∈ colors, x.colorFamily = determineColorFamily c.hue := by
  intro x hx
  unfold configEachImageColorPalette sortPalette at hx
  rw [List.mem_mergeSort, List.mem_map] at hx
  obtain ⟨c, hc, rfl⟩ := hx
  exact ⟨c, (List.mem_filter.mp hc).1, rfl⟩

/-! ## C2: validity formula over filtered data -/

/-- Claim C2: The evaluated image's `valid` flag holds iff the number of
distinct families of the filtered, classified swatch list is at least
`minDistinctColorsRequired` and the filtered swatch count is at least
`minColorsRequired` — both quantities computed from the filtered list,
never from the unfiltered raw list. -/
theorem valid_spec (conv : Conv) (cfg : PipelineConfig) (p : ImagePalette) :
    (configEachImageFinalObject conv cfg p).valid = true ↔
      cfg.minDistinctColorsRequired ≤
        ((p.colors.filter (filterPalette conv cfg.darkThreshold cfg.grayThreshold)).map
          (fun c => determineColorFamily c.hue)).toFinset.card ∧
      cfg.minColorsRequired ≤
        (p.colors.filter (filterPalette conv cfg.darkThreshold cfg.grayThreshold)).length := by
  have hlen := configEachImageColorPalette_length conv cfg.darkThreshold cfg.grayThreshold p.colors
  have hcard : (setDedup ((configEachImageColorPalette conv cfg.darkThreshold
      cfg.grayThreshold p.colors).map (fun c => c.colorFamily))).length =
      ((p.colors.filter (filterPalette conv cfg.darkThreshold cfg.grayThreshold)).map
        (fun c => determineColorFamily c.hue)).toFinset.card := by
    rw [setDedup_length_eq_card,
      configEachImageColorPalette_families conv cfg.darkThreshold cfg.grayThreshold p.colors]
  simp only [configEachImageFinalObject, Bool.and_eq_true, decide_eq_true_eq, ge_iff_le]
  rw [hcard, hlen]

/-! ## C3: the empty palette -/

/-- Counterexample to C3 as stated: with both minimums set to `0` (the
sliders' lower bound), the empty palette is `valid`, not invalid. -/
theorem emptyPalette_valid_counterexample :
    (configEachImageFinalObject sampleConv
      { minColorsRequired := 0, minDistinctColorsRequired := 0,
        darkThreshold := 0, grayThreshold := 0 }
      { img := "", colors := [] }).valid = true := by
  simp only [configEachImageFinalObject, configEachImageColorPalette, sortPalette,
    List.filter_nil, List.map_nil, List.mergeSort_nil, setDedup, List.length_nil]
  rfl

/-- Claim C3, amended: For every configuration, evaluating an empty
swatch list yields filtered count `0`, distinct family count `0` and
monochrome score `100`; `valid` is true exactly when both configured
minimums are `0`, hence false whenever either minimum is positive. -/
theorem emptyPalette_spec (conv : Conv) (cfg : PipelineConfig) (img : String) :
    (configEachImageFinalObject conv cfg { img := img, colors := [] }).colors.length = 0 ∧
    (configEachImageFinalObject conv cfg { img := img, colors := [] }).distinctColors.length
      = 0 ∧
    (configEachImageFinalObject conv cfg { img := img, colors := [] }).monochrome = 100 ∧
    ((configEachImageFinalObject conv cfg { img := img, colors := [] }).valid = true ↔
      cfg.minDistinctColorsRequired = 0 ∧ cfg.minColorsRequired = 0) := by
  simp only [configEachImageFinalObject, configEachImageColorPalette, sortPalette,
    List.filter_nil, List.map_nil, List.mergeSort_nil, setDedup, List.length_nil,
    monochromeScore, Bool.and_eq_true, decide_eq_true_eq, ge_iff_le, Nat.le_zero]
  norm_num

/-! ## C8: batch ranked ascending by monochrome score -/

theorem monochromeLe_trans : ∀ a b c : EvaluatedImage,
    monochromeLe a b → monochromeLe b c → monochromeLe a c := by
  intro a b c h1 h2
  simp only [monochromeLe, decide_eq_true_eq] at h1 h2 ⊢
  exact le_trans h1 h2

theorem monochromeLe_total : ∀ a b : EvaluatedImage,
    monochromeLe a b || monochromeLe b a := by
  intro a b
  simp only [monochromeLe, Bool.or_eq_true, decide_eq_true_eq]
  exact le_total _ _

/-- Claim C8: The batch result is ranked ascending by monochrome score:
every adjacent pair of evaluated images in `configImages`' output has
the earlier score at most the later score. -/
theorem configImages_ranked (conv : Conv) (cfg : PipelineConfig)
    (ps : List ImagePalette) :
    (configImages conv cfg ps).Chain' (fun a b => a.monochrome ≤ b.monochrome) := by
  have hp : (configImages conv cfg ps).Pairwise (fun a b => monochromeLe a b = true) :=
    List.sorted_mergeSort monochromeLe_trans monochromeLe_total
      (ps.map (configEachImageFinalObject conv cfg))
  have hp' : (configImages conv cfg ps).Pairwise
      (fun a b => a.monochrome ≤ b.monochrome) :=
    hp.imp (fun h => by simpa [monochromeLe, decide_eq_true_eq] using h)
  exact hp'.chain'

/-! ## C9: determinism / idempotence -/

/-- Claim C9: Evaluation is deterministic and idempotent: two runs of the
full evaluation on the same batch and configuration are equal, both as
a whole batch and image by image. -/
theorem evaluate_idempotent (conv : Conv) (cfg : PipelineConfig)
    (ps : List ImagePalette) :
    configImages conv cfg ps = configImages conv cfg ps ∧
    ∀ p : ImagePalette,
      configEachImageFinalObject conv cfg p = configEachImageFinalObject conv cfg p :=
  ⟨rfl, fun _ => rfl⟩

/-! ## C10: distinct family count bounded by min(n, 5) -/

theorem namedFamilies_card : namedFamilies.toFinset.card = 5 := by
  decide

/-- Claim C10: For a palette whose swatch hues all lie in `[0, 1)`, the
distinct family count is at most `min n 5` where `n` is the filtered
swatch count; consequently `valid` is false whenever
`minDistinctColorsRequired` is `6`, the slider's maximum. -/
theorem distinctColors_bound (conv : Conv) (cfg : PipelineConfig) (p : ImagePalette)
    (hhue : ∀ c ∈ p.colors, 0 ≤ c.hue ∧ c.hue < 1) :
    (configEachImageFinalObject conv cfg p).distinctColors.length ≤
      min (configEachImageFinalObject conv cfg p).colors.length 5 ∧
    (cfg.minDistinctColorsRequired = 6 →
      (configEachImageFinalObject conv cfg p).valid = false) := by
  have hdc : (configEachImageFinalObject conv cfg p).distinctColors =
      setDedup ((configEachImageColorPalette conv cfg.darkThreshold
        cfg.grayThreshold p.colors).map (fun c => c.colorFamily)) := rfl
  have hcolors : (configEachImageFinalObject conv cfg p).colors =
      configEachImageColorPalette conv cfg.darkThreshold cfg.grayThreshold p.colors := rfl
  have hn : (configEachImageFinalObject conv cfg p).distinctColors.length ≤
      (configEachImageFinalObject conv cfg p).colors.length := by
    rw [hdc, hcolors]
    calc (setDedup ((configEachImageColorPalette conv cfg.darkThreshold
            cfg.grayThreshold p.colors).map (fun c => c.colorFamily))).length
        ≤ ((configEachImageColorPalette conv cfg.darkThreshold
            cfg.grayThreshold p.colors).map (fun c => c.colorFamily)).length :=
          setDedup_length_le _
      _ = (configEachImageColorPalette conv cfg.darkThreshold
            cfg.grayThreshold p.colors).length := List.length_map _ _
  have h5 : (configEachImageFinalObject conv cfg p).distinctColors.length ≤ 5 := by
    rw [hdc, setDedup_length_eq_card]
    have hsub : ((configEachImageColorPalette conv cfg.darkThreshold
        cfg.grayThreshold p.colors).map (fun c => c.colorFamily)).toFinset ⊆
        namedFamilies.toFinset := by
      intro s hs
      rw [List.mem_toFinset] at hs ⊢
      rw [List.mem_map] at hs
      obtain ⟨x, hx, rfl⟩ := hs
      obtain ⟨c, hc, heq⟩ :=
        mem_configEachImageColorPalette conv cfg.darkThreshold cfg.grayThreshold
          p.colors x hx
      rw [heq]
      exact determineColorFamily_mem_namedFamilies (hhue c hc).1 (hhue c hc).2
    calc ((configEachImageColorPalette conv cfg.darkThreshold
          cfg.grayThreshold p.colors).map (fun c => c.colorFamily)).toFinset.card
        ≤ namedFamilies.toFinset.card := Finset.card_le_card hsub
      _ = 5 := namedFamilies_card
  refine ⟨le_min hn h5, ?_⟩
  intro h6
  have hvalid : (configEachImageFinalObject conv cfg p).valid =
      (decide ((configEachImageFinalObject conv cfg p).distinctColors.length ≥
          cfg.minDistinctColorsRequired) &&
        decide ((configEachImageFinalObject conv cfg p).colors.length ≥
          cfg.minColorsRequired)) := rfl
  rw [hvalid, h6]
  have hne : ¬((configEachImageFinalObject conv cfg p).distinctColors.length ≥ 6) := by
    omega
  rw [decide_eq_false hne, Bool.false_and]

/-- Witness for C10: a one-swatch palette with hue `1/2` under the
six-distinct-families requirement is invalid. -/
theorem distinctColors_bound_witness :
    (configEachImageFinalObject sampleConv
      { minColorsRequired := 0, minDistinctColorsRequired := 6,
        darkThreshold := 0, grayThreshold := 0 }
      { img := "img", colors := [sampleSwatch] }).valid = false :=
  (distinctColors_bound sampleConv
    { minColorsRequired := 0, minDistinctColorsRequired := 6,
      darkThreshold := 0, grayThreshold := 0 }
    { img := "img", colors := [sampleSwatch] }
    (by
      intro c hc
      simp only [List.mem_singleton] at hc
      subst hc
      exact ⟨by norm_num [sampleSwatch], by norm_num [sampleSwatch]⟩)).2 rfl

end Monochrome
